import Mathlib

/-!
Shallow embedding of `transcribe.py` (krets/transcribe) and proofs about it.

Python strings are modelled as Lean `String`, viewed through their character
data (`String.data`); Python slicing/`len` act on characters, matching this.
File modification times (`os.path.getmtime`) are modelled as `Int`: the only
operation the program performs on them is `<` comparison, which the integer
model shares with Python floats.
-/

namespace Transcribe

/-! ### Python string primitives used by the program -/

/-- Python slicing `s[:n]` on the character sequence. -/
def strTake (s : String) (n : Nat) : String :=
  ⟨s.data.take n⟩

/-- Python `len(s)` (number of characters). -/
def strLen (s : String) : Nat :=
  s.data.length

/-- Python `s.startswith(p)`. -/
def startswith (s p : String) : Bool :=
  p.data.isPrefixOf s.data

/-- Python `s.endswith(p)`. -/
def endswith (s p : String) : Bool :=
  p.data.isSuffixOf s.data

/-- Python `s.isdigit()` (restricted to ASCII digits, the only ones relevant
here): true iff `s` is nonempty and every character is a digit. -/
def pyIsdigit (s : String) : Bool :=
  !s.data.isEmpty && s.data.all Char.isDigit

/-! ### `os.path` primitives (POSIX variants, as used on the target platform) -/

/-- Split character data at the last `'/'`: returns the head part (up to and
including the last slash) and the tail after it.  Mirrors CPython's
`i = p.rfind('/') + 1; head, tail = p[:i], p[i:]`. -/
def splitAtLastSlash (l : List Char) : List Char × List Char :=
  let r := l.reverse
  ((r.dropWhile (fun c => c ≠ '/')).reverse, (r.takeWhile (fun c => c ≠ '/')).reverse)

/-- `os.path.basename` (posixpath): the part after the last `'/'`. -/
def basename (s : String) : String :=
  ⟨(splitAtLastSlash s.data).2⟩

/-- `posixpath.dirname`: the part before the last `'/'`, with trailing slashes
stripped from it unless it consists only of slashes. -/
def dirname (s : String) : String :=
  let h := (splitAtLastSlash s.data).1
  if h ≠ [] ∧ h.any (fun c => c ≠ '/') then
    ⟨((h.reverse).dropWhile (fun c => c = '/')).reverse⟩
  else ⟨h⟩

/-- `os.path.splitext` on character data, following CPython
`genericpath._splitext` with `sep = '/'`, `extsep = '.'`: split at the last
dot that lies inside the basename, unless the basename up to that dot is all
dots (leading dots do not start an extension). -/
def splitextData (l : List Char) : List Char × List Char :=
  let h := (splitAtLastSlash l).1
  let b := (splitAtLastSlash l).2
  let br := b.reverse
  let afterDotRev := br.takeWhile (fun c => c ≠ '.')
  let restRev := br.dropWhile (fun c => c ≠ '.')
  match restRev with
  | [] => (l, [])
  | _ :: beforeDotRev =>
    if beforeDotRev.any (fun c => c ≠ '.') then
      (h ++ beforeDotRev.reverse, '.' :: afterDotRev.reverse)
    else (l, [])

/-- `os.path.splitext` on strings. -/
def splitext (s : String) : String × String :=
  (⟨(splitextData s.data).1⟩, ⟨(splitextData s.data).2⟩)

/-- `posixpath.join` for two components. -/
def joinPath (a b : String) : String :=
  if startswith b "/" then b
  else if a = "" || endswith a "/" then a ++ b
  else a ++ "/" ++ b

/-! ### Date inference (`main`, lines 185-188)

The `else` branch formats the input's modification time with
`datetime.fromtimestamp(...).strftime('%Y-%m-%d')`; that library call is an
external collaborator, so the already-formatted string is passed in as the
`mtimeDate` argument. -/

/-- `assumed_date` as computed by `main`: the first ten characters of the base
name when it starts with `"20"`, its first four characters are digits, and it
is longer than ten characters; otherwise the formatted modification time. -/
def assumed_date (base_name mtimeDate : String) : String :=
  if startswith base_name "20" && pyIsdigit (strTake base_name 4)
      && decide (strLen base_name > 10) then
    strTake base_name 10
  else mtimeDate

/-- Structural `YYYY-MM-DD` pattern: four digits, hyphen, two digits, hyphen,
two digits.  This follows the spec's words, for comparison with the code. -/
def dateLikeYYYYMMDD (s : String) : Bool :=
  match s.data with
  | [y1, y2, y3, y4, h1, m1, m2, h2, d1, d2] =>
    y1.isDigit && y2.isDigit && y3.isDigit && y4.isDigit && (h1 == '-')
      && m1.isDigit && m2.isDigit && (h2 == '-') && d1.isDigit && d2.isDigit
  | _ => false

/-- Date inference as the spec words it (for comparison with `assumed_date`). -/
def assumed_date_spec (base_name mtimeDate : String) : String :=
  if dateLikeYYYYMMDD (strTake base_name 10) && decide (strLen base_name > 10) then
    strTake base_name 10
  else mtimeDate

/-! ### Transcription cache (`get_transcription_for_file`, lines 117-135)

The filesystem state relevant to one input file is its modification time and
the optional cache entry (the sidecar file's modification time and stored
value).  The Extractor/Speech-to-Text pair is an external collaborator whose
result is the `fresh` parameter; `now` is the modification time the cache file
receives when (over)written.  The stored value type is abstract (`α`): the
code caches the service's JSON verbatim. -/

structure CacheState (α : Type) where
  inputMtime : Int
  cache : Option (Int × α)
deriving Repr, DecidableEq

/-- `cache_mtime = os.path.getmtime(cached) if os.path.exists(cached) else 0`. -/
def cacheMtime {α : Type} (s : CacheState α) : Int :=
  match s.cache with
  | some (m, _) => m
  | none => 0

/-- Outcome of one call to `get_transcription_for_file`: the returned value
(`Except.error ()` when `open(cached_transcription, 'r')` fails because the
file is absent), whether the Extractor/Speech-to-Text pipeline ran, and the
filesystem state after the call. -/
structure GtfOutcome (α : Type) where
  result : Except Unit α
  pipelineRan : Bool
  state : CacheState α
deriving Repr

/-- `get_transcription_for_file(input_file, skip_cache)` over the cache state:
stale branch when `skip_cache or (cache_mtime < input_mtime)`, which extracts,
transcribes and overwrites the cache entry; otherwise the cache entry is
loaded (failing if the file does not exist). -/
def get_transcription_for_file {α : Type} (skip_cache : Bool) (s : CacheState α)
    (fresh : α) (now : Int) : GtfOutcome α :=
  if skip_cache || decide (cacheMtime s < s.inputMtime) then
    { result := .ok fresh, pipelineRan := true,
      state := { inputMtime := s.inputMtime, cache := some (now, fresh) } }
  else
    match s.cache with
    | some (_, v) => { result := .ok v, pipelineRan := false, state := s }
    | none => { result := .error (), pipelineRan := false, state := s }

/-! ### Transcript assembly (`main`, lines 190-193) -/

structure Segment where
  start : Nat
  text : String
deriving Repr, DecidableEq

/-- Two-digit zero padding, as `str(timedelta)` renders minutes and seconds. -/
def pad2 (n : Nat) : String :=
  if n < 10 then "0" ++ toString n else toString n

/-- `str(datetime.timedelta(seconds = n))` for a whole number of seconds:
`H:MM:SS`, preceded by `D day, ` / `D days, ` when `n` spans full days. -/
def strTimedelta (n : Nat) : String :=
  let days := n / 86400
  let rem := n % 86400
  let hms := toString (rem / 3600) ++ ":" ++ pad2 (rem % 3600 / 60) ++ ":" ++ pad2 (rem % 60)
  if days = 0 then hms
  else if days = 1 then "1 day, " ++ hms
  else toString days ++ " days, " ++ hms

/-- One loop iteration's appended text: `f"[{timedelta(seconds=seg['start'])}] {seg['text']}\n"`. -/
def segmentLine (seg : Segment) : String :=
  "[" ++ strTimedelta seg.start ++ "] " ++ seg.text ++ "\n"

/-- The assembly loop of `main`: `text` starts as the f-string header and each
segment appends its line. -/
def assemble_transcript (base_name date : String) (segs : List Segment) : String :=
  segs.foldl (fun text seg => text ++ segmentLine seg)
    ("Filename: " ++ base_name ++ "\nDate: " ++ date ++ "\n\n")

/-- Concatenation of the per-segment lines, used to state the layout of the
assembled document. -/
def segmentLines : List Segment → String
  | [] => ""
  | seg :: rest => segmentLine seg ++ segmentLines rest

/-- The document `main` ends up printing/summarizing, as a function of the
classifier outcome: when `transcription` is non-null (a non-empty object, hence
truthy) the assembled transcript replaces `text`; otherwise `text` is left as
the classifier produced it. -/
def main_document (base_name date : String) (transcription : Option (List Segment))
    (text0 : Option String) : Option String :=
  match transcription with
  | some segs => some (assemble_transcript base_name date segs)
  | none => text0

/-! ### Input classifier (`read_file`, lines 148-164) -/

/-- Result of opening the input with `encoding='utf-8'` and reading it:
either the bytes are not valid text (`UnicodeDecodeError`, caught by
`read_file`), or they decode to a string.  For the plain-text branch the code
reads `f.read(1024)` then `f.read()` and concatenates, which is the full
decoded contents, so a single string suffices. -/
inductive Decoded where
  | undecodable
  | text (s : String)
deriving Repr, DecidableEq

/-- Result of `json.load` on decoded contents: a `json.decoder.JSONDecodeError`,
the JSON literal `null` (which `json.load` returns as Python `None`), or a
non-null value (abstract: the program stores it verbatim). -/
inductive JsonParse (α : Type) where
  | fail
  | null
  | value (v : α)
deriving Repr, DecidableEq

/-- `read_file(input_file)`: returns the `(transcription, text)` pair, or a
fatal `JSONDecodeError` (which is not caught — only `UnicodeDecodeError` is).
`parse` is the `json.load` collaborator applied to the decoded contents. -/
def read_file {α : Type} (input_file : String) (d : Decoded)
    (parse : String → JsonParse α) : Except String (Option α × Option String) :=
  match d with
  | .undecodable => .ok (none, none)
  | .text s =>
    if endswith input_file ".json" then
      match parse s with
      | .fail => .error "json.decoder.JSONDecodeError"
      | .null => .ok (none, none)
      | .value v => .ok (some v, none)
    else .ok (none, some s)

/-! ### Speech-to-text response handling (`transcribe_audio`, lines 74-82)

After `requests.post` the code runs
```text
try: data = response.json()
except json.decoder.JSONDecodeError: data = None
if data and response.status_code < 200 or response.status_code >= 300:
    LOG.error(data.get("error", \x7b\x7d).get("message", data))
response.raise_for_status()
```
Python precedence parses the condition as
`(data and status < 200) or (status >= 300)`.  When it holds, the argument of
`LOG.error` is evaluated first, and the `.get` chain raises `AttributeError`
before anything is logged unless `data` is a dict whose `error` field is
absent or itself a dict: `data = None` (a `JSONDecodeError`, or a body of JSON
`null`), a parsed list/string/number/bool, and a dict whose `error` value is a
non-dict all lack the needed `.get`.  `response.raise_for_status()` raises
`requests.HTTPError` exactly for status codes in `[400, 600)`. -/

/-- The `error` field of a parsed JSON object, as the inner
`.get("message", data)` call sees it after `data.get("error", \x7b\x7d)`:
absent (the default empty dict is used), an object (the `.get` chain
succeeds), or any non-object value — string, list, number, bool or null —
on which `.get` raises `AttributeError`. -/
inductive ErrField where
  | absent
  | objectVal (message : Option String)
  | otherVal
deriving Repr, DecidableEq

/-- The `data` variable after the `try`/`except` around `response.json()`:
`unparsable` is a `JSONDecodeError` (so `data = None`); `parsedNull` is a body
of JSON `null`, which `response.json()` returns as Python `None` as well;
`parsedDict` is a JSON object with its Python truthiness (empty = falsy) and
its `error` field; `parsedOther` is any other parsed value (list, string,
number, bool) with its truthiness — these have no `.get` attribute. -/
inductive RespBody where
  | unparsable
  | parsedNull
  | parsedDict (truthy : Bool) (err : ErrField)
  | parsedOther (truthy : Bool)
deriving Repr, DecidableEq

/-- Python truthiness of `data` (`None` is falsy). -/
def bodyTruthy : RespBody → Bool
  | .unparsable => false
  | .parsedNull => false
  | .parsedDict t _ => t
  | .parsedOther t => t

/-- Whether evaluating `data.get("error", \x7b\x7d).get("message", data)`
succeeds: only for a dict whose `error` field is absent or itself an object;
every other shape of `data` raises `AttributeError` at this line. -/
def logArgOk : RespBody → Bool
  | .parsedDict _ .absent => true
  | .parsedDict _ (.objectVal _) => true
  | _ => false

/-- How one call to `transcribe_audio` ends, after the HTTP response is in. -/
inductive TAOutcome where
  | returnsData
  | attrError
  | httpError
deriving Repr, DecidableEq

/-- `response.raise_for_status()` raises iff the status is 4xx or 5xx. -/
def raiseForStatus (status : Nat) : Bool :=
  decide (400 ≤ status) && decide (status < 600)

/-- The `if` condition guarding the `LOG.error` line, with Python's
`and`/`or` precedence. -/
def logCondition (status : Nat) (b : RespBody) : Bool :=
  (bodyTruthy b && decide (status < 200)) || decide (300 ≤ status)

/-- Outcome and whether the error message was logged, for a response with the
given status code and body: when the `LOG.error` guard holds, its argument is
evaluated (raising `AttributeError` unless the `.get` chain succeeds) and
logged; then `raise_for_status()` raises for 4xx/5xx; otherwise `data` is
returned. -/
def transcribe_status_outcome (status : Nat) (b : RespBody) : TAOutcome × Bool :=
  if logCondition status b then
    if logArgOk b then
      (if raiseForStatus status then .httpError else .returnsData, true)
    else (.attrError, false)
  else
    (if raiseForStatus status then .httpError else .returnsData, false)

/-! ### Subprocess orchestration (`extract_audio` lines 22-45,
`get_audio_duration` lines 48-53)

`subprocess.run` is an external collaborator: `run` maps the command string to
its completed-process result. -/

structure RunResult where
  returncode : Int
  stdout : String
  stderr : String
deriving Repr, DecidableEq

/-- The message of the `ChildProcessError` raised on a non-zero exit:
`f"Error running command: \x7bcommand\x7d\n\x7bresult.stderr\x7d"`. -/
def commandErrorMsg (command : String) (r : RunResult) : String :=
  "Error running command: " ++ command ++ "\n" ++ r.stderr

/-- The two audio output paths of `extract_audio`, derived from the input's
base name alone: `f"\x7bbase_name\x7d.opus"` and `f"\x7bbase_name\x7d.ogg"`. -/
def audioOutputs (input_file : String) : String × String :=
  let base_name := (splitext (basename input_file)).1
  (base_name ++ ".opus", base_name ++ ".ogg")

/-- The first ffmpeg command of `extract_audio`. -/
def extractCmd1 (input_file opus_file : String) : String :=
  "ffmpeg -i " ++ input_file ++ " -acodec libopus -b:a 16k -ac 1 -ar 16000 " ++ opus_file

/-- The second ffmpeg command of `extract_audio`. -/
def extractCmd2 (opus_file ogg_file : String) : String :=
  "ffmpeg -i " ++ opus_file ++ " -acodec copy " ++ ogg_file

/-- `extract_audio(input_file)`: runs the two ffmpeg steps in order, raising
`ChildProcessError` at the first non-zero exit status, and returns the `.ogg`
path on success. -/
def extract_audio (input_file : String) (run : String → RunResult) :
    Except String String :=
  let opus_file := (audioOutputs input_file).1
  let ogg_file := (audioOutputs input_file).2
  let c1 := extractCmd1 input_file opus_file
  let r1 := run c1
  if r1.returncode ≠ 0 then .error (commandErrorMsg c1 r1)
  else
    let c2 := extractCmd2 opus_file ogg_file
    let r2 := run c2
    if r2.returncode ≠ 0 then .error (commandErrorMsg c2 r2)
    else .ok ogg_file

/-- The ffprobe command of `get_audio_duration`. -/
def ffprobeCmd (audio_file : String) : String :=
  "ffprobe -v error -show_entries format=duration -of default=noprint_wrappers=1:nokey=1 "
    ++ audio_file

/-- `get_audio_duration(audio_file)`: raises `ChildProcessError` on a non-zero
exit status, otherwise returns `result.stdout.strip()` (the `float(...)`
conversion is outside this model). -/
def get_audio_duration (audio_file : String) (run : String → RunResult) :
    Except String String :=
  let c := ffprobeCmd audio_file
  let r := run c
  if r.returncode ≠ 0 then .error (commandErrorMsg c r)
  else .ok r.stdout.trim

/-! ### Filesystem effects of a fresh (cache-miss) pipeline run -/

/-- A filesystem effect: removal or creation/overwrite of a path. -/
inductive FsEvent where
  | removed (path : String)
  | wrote (path : String)
deriving Repr, DecidableEq

/-- The cache sidecar path:
`os.path.join(dirname, f".\x7bbase_basename\x7d.json")` where `base_basename`
is the input's base name without extension. -/
def cachePath (input_file : String) : String :=
  joinPath (dirname input_file)
    ("." ++ (splitext (basename input_file)).1 ++ ".json")

/-- Filesystem effects of `extract_audio` when both ffmpeg steps succeed:
pre-existing outputs among `[opus_file, ogg_file]` are removed, then each
ffmpeg invocation writes its output path.  `exists0` tells which paths exist
in the working directory beforehand. -/
def extract_audio_events (input_file : String) (exists0 : String → Bool) :
    List FsEvent :=
  let opus_file := (audioOutputs input_file).1
  let ogg_file := (audioOutputs input_file).2
  ((if exists0 opus_file then [.removed opus_file] else []) ++
    (if exists0 ogg_file then [.removed ogg_file] else [])) ++
  [.wrote opus_file, .wrote ogg_file]

/-- Filesystem effects of one cache-miss run of `get_transcription_for_file`:
those of `extract_audio`, then the cache entry write (`json.dump`). -/
def fresh_pipeline_events (input_file : String) (exists0 : String → Bool) :
    List FsEvent :=
  extract_audio_events input_file exists0 ++ [.wrote (cachePath input_file)]

/-- Paths created or overwritten by a sequence of effects, in order. -/
def writtenPaths (evs : List FsEvent) : List String :=
  evs.filterMap fun e =>
    match e with
    | .wrote p => some p
    | .removed _ => none

/-- Paths removed by a sequence of effects, in order. -/
def removedPaths (evs : List FsEvent) : List String :=
  evs.filterMap fun e =>
    match e with
    | .removed p => some p
    | .wrote _ => none

/-! ## Theorems -/

/-- C1 (counterexample): the claim says an absent cache entry always routes to
the fresh pipeline, for every input modification time.  With `skip_cache =
false`, no cache entry and input modification time `0`, the code compares
`0 < 0`, takes the cached branch, does not run the pipeline, and fails opening
the missing cache file. -/
theorem C1_claim_counterexample :
    (⟨0, none⟩ : CacheState Nat).cache = none ∧
    (get_transcription_for_file false (⟨0, none⟩ : CacheState Nat) 7 1).pipelineRan = false ∧
    (get_transcription_for_file false (⟨0, none⟩ : CacheState Nat) 7 1).result = .error () :=
  ⟨rfl, rfl, rfl⟩

/-- C1 (amended): `get_transcription_for_file` runs the fresh pipeline
(extract, transcribe, overwrite the cache entry) iff `skip_cache` is true or
the cache entry's modification time — taken as `0` when the entry is absent —
is strictly older than the input's.  So an absent entry routes to the fresh
pipeline exactly when the input's modification time is positive; with an
absent entry and non-positive input time the load of the missing entry fails.
In every remaining case the existing entry is returned with no pipeline run
and no state change. -/
theorem C1_cache_decision {α : Type} (skip_cache : Bool) (s : CacheState α)
    (fresh : α) (now : Int) :
    ((get_transcription_for_file skip_cache s fresh now).pipelineRan
        = (skip_cache || decide (cacheMtime s < s.inputMtime))) ∧
    (skip_cache = true ∨ cacheMtime s < s.inputMtime →
      (get_transcription_for_file skip_cache s fresh now).result = .ok fresh ∧
      (get_transcription_for_file skip_cache s fresh now).state.cache = some (now, fresh)) ∧
    (skip_cache = false → ¬ cacheMtime s < s.inputMtime →
      (get_transcription_for_file skip_cache s fresh now).pipelineRan = false ∧
      (∀ m v, s.cache = some (m, v) →
        (get_transcription_for_file skip_cache s fresh now).result = .ok v ∧
        (get_transcription_for_file skip_cache s fresh now).state = s) ∧
      (s.cache = none →
        (get_transcription_for_file skip_cache s fresh now).result = .error ())) := by
  by_cases h : skip_cache = true ∨ cacheMtime s < s.inputMtime
  · have hb : (skip_cache || decide (cacheMtime s < s.inputMtime)) = true := by
      rcases h with h | h
      · simp [h]
      · simp [h]
    have e : get_transcription_for_file skip_cache s fresh now =
        ⟨.ok fresh, true, ⟨s.inputMtime, some (now, fresh)⟩⟩ := by
      simp [get_transcription_for_file, hb]
    refine ⟨by rw [e, hb], fun _ => ⟨by rw [e], by rw [e]⟩, fun hsk hlt => ?_⟩
    rcases h with h | h
    · rw [hsk] at h; exact Bool.noConfusion h
    · exact absurd h hlt
  · have hsk : skip_cache = false := by
      cases skip_cache
      · rfl
      · exact absurd (Or.inl rfl) h
    have hlt : ¬ cacheMtime s < s.inputMtime := fun hl => h (Or.inr hl)
    have hb : (skip_cache || decide (cacheMtime s < s.inputMtime)) = false := by
      rw [hsk, Bool.false_or, decide_eq_false hlt]
    cases hc : s.cache with
    | none =>
      have e : get_transcription_for_file skip_cache s fresh now =
          ⟨.error (), false, s⟩ := by
        simp [get_transcription_for_file, hb, hc]
      refine ⟨by rw [e, hb], fun hcon => absurd hcon h,
        fun _ _ => ⟨by rw [e], fun m v hmv => ?_, fun _ => by rw [e]⟩⟩
      exact Option.noConfusion hmv
    | some mv =>
      obtain ⟨m0, v0⟩ := mv
      have e : get_transcription_for_file skip_cache s fresh now =
          ⟨.ok v0, false, s⟩ := by
        simp [get_transcription_for_file, hb, hc]
      refine ⟨by rw [e, hb], fun hcon => absurd hcon h,
        fun _ _ => ⟨by rw [e], fun m v hmv => ?_, fun hnone => ?_⟩⟩
      · have hv : v0 = v := by
          have h2 : (m0, v0) = (m, v) := by injection hmv
          exact congrArg Prod.snd h2
        exact ⟨by rw [e, hv], by rw [e]⟩
      · exact Option.noConfusion hnone

/-- Witness for C1: a present, fresh cache entry (`skip_cache = false`, entry
mtime 5 ≥ input mtime 3) is returned as-is with no pipeline run. -/
theorem C1_cache_decision_witness :
    (get_transcription_for_file false (⟨3, some (5, 7)⟩ : CacheState Nat) 9 11).result
        = .ok 7 ∧
    (get_transcription_for_file false (⟨3, some (5, 7)⟩ : CacheState Nat) 9 11).pipelineRan
        = false := by
  have h := C1_cache_decision false (⟨3, some (5, 7)⟩ : CacheState Nat) 9 11
  have h3 := h.2.2 rfl (by decide)
  exact ⟨(h3.2.1 5 7 rfl).1, h3.1⟩

/-- C2 (confirmed): with `skip_cache = false`, if the first call succeeds and
no file is mutated in between (the freshly written entry's modification time
`now` is not older than the input's, and the input is untouched), the second
call returns the same transcription and does not run the extract/transcribe
pipeline. -/
theorem C2_idempotence {α : Type} (s : CacheState α) (fresh fresh2 : α)
    (now now2 : Int) (hnow : s.inputMtime ≤ now)
    (hok : ∃ t, (get_transcription_for_file false s fresh now).result = .ok t) :
    (get_transcription_for_file false
        (get_transcription_for_file false s fresh now).state fresh2 now2).result
      = (get_transcription_for_file false s fresh now).result ∧
    (get_transcription_for_file false
        (get_transcription_for_file false s fresh now).state fresh2 now2).pipelineRan
      = false := by
  by_cases h : cacheMtime s < s.inputMtime
  · have hb : (false || decide (cacheMtime s < s.inputMtime)) = true := by
      rw [Bool.false_or, decide_eq_true h]
    have h1 : get_transcription_for_file false s fresh now =
        ⟨.ok fresh, true, ⟨s.inputMtime, some (now, fresh)⟩⟩ := by
      simp [get_transcription_for_file, hb]
    rw [h1]
    have hb2 : (false ||
        decide (cacheMtime (⟨s.inputMtime, some (now, fresh)⟩ : CacheState α)
          < (⟨s.inputMtime, some (now, fresh)⟩ : CacheState α).inputMtime)) = false := by
      rw [Bool.false_or, decide_eq_false]
      exact not_lt.mpr hnow
    constructor <;> simp [get_transcription_for_file, hb2]
  · have hb : (false || decide (cacheMtime s < s.inputMtime)) = false := by
      rw [Bool.false_or, decide_eq_false h]
    cases hc : s.cache with
    | none =>
      obtain ⟨t, ht⟩ := hok
      rw [show get_transcription_for_file false s fresh now =
          ⟨.error (), false, s⟩ from by simp [get_transcription_for_file, hb, hc]] at ht
      exact Except.noConfusion ht
    | some mv =>
      obtain ⟨m0, v0⟩ := mv
      have h1 : get_transcription_for_file false s fresh now =
          ⟨.ok v0, false, s⟩ := by
        simp [get_transcription_for_file, hb, hc]
      rw [h1]
      constructor <;> simp [get_transcription_for_file, hb, hc]

/-- Witness for C2: input mtime 5, no cache entry; the first call transcribes
fresh and writes the entry at time 6, the second call reloads it unchanged. -/
theorem C2_idempotence_witness :
    (get_transcription_for_file false
        (get_transcription_for_file false (⟨5, none⟩ : CacheState Nat) 1 6).state 2 7).result
      = (get_transcription_for_file false (⟨5, none⟩ : CacheState Nat) 1 6).result ∧
    (get_transcription_for_file false
        (get_transcription_for_file false (⟨5, none⟩ : CacheState Nat) 1 6).state 2 7).pipelineRan
      = false :=
  C2_idempotence (⟨5, none⟩ : CacheState Nat) 1 2 6 7 (by decide) ⟨1, rfl⟩

/-- C3 (counterexample): the claim says every non-success status
(`status < 200` or `status ≥ 300`) raises a fatal error.  For status `301`
with a parseable body — a truthy dict whose `error` field is an object — the
code logs the service message and then `raise_for_status()` does nothing: the
call returns the data normally. -/
theorem C3_claim_counterexample :
    transcribe_status_outcome 301 (.parsedDict true (.objectVal (some "moved")))
      = (.returnsData, true) ∧
    (301 < 200 ∨ 300 ≤ 301) := by
  constructor
  · rfl
  · exact Or.inr (by decide)

/-- C3 (amended): `transcribe_audio` fails on the response iff the status is
4xx/5xx (the `requests.HTTPError` from `raise_for_status`), or the `LOG.error`
guard holds — the body is truthy with status < 200, or status ≥ 300 — while
`data` does not support the `.get` chain (the body was unparseable or JSON
`null`, so `data` is `None`; or it parsed to a non-dict value; or to a dict
whose `error` field is a non-dict value): then an `AttributeError` is raised
at the logging line before anything is logged.  The best-effort service error
message is logged exactly when the guard holds and the `.get` chain succeeds.
An unparseable body is tolerated at the parsing step, and with status ≥ 300
the call still fails (via the `AttributeError`).  Any 2xx response returns the
data without logging, whatever the body; a gettable dict body with a status
below 200 or in `[300, 400)` is logged as an error but the call still returns
normally. -/
theorem C3_status_handling (status : Nat) (b : RespBody) :
    ((transcribe_status_outcome status b).1 ≠ .returnsData ↔
      ((400 ≤ status ∧ status < 600) ∨
        (logCondition status b = true ∧ logArgOk b = false))) ∧
    ((transcribe_status_outcome status b).2 = true ↔
      (logCondition status b = true ∧ logArgOk b = true)) ∧
    ((transcribe_status_outcome status b).1 = .attrError ↔
      (logCondition status b = true ∧ logArgOk b = false)) ∧
    (b = .unparsable → 300 ≤ status →
      (transcribe_status_outcome status b).1 = .attrError) ∧
    (200 ≤ status ∧ status < 300 →
      transcribe_status_outcome status b = (.returnsData, false)) := by
  have h2xx : 200 ≤ status ∧ status < 300 → logCondition status b = false := by
    intro hs
    rw [logCondition, decide_eq_false (by omega : ¬ status < 200),
      decide_eq_false (by omega : ¬ 300 ≤ status)]
    simp
  by_cases hlc : logCondition status b = true
  · by_cases hok : logArgOk b = true
    · by_cases hrf : raiseForStatus status = true
      · have e : transcribe_status_outcome status b = (.httpError, true) := by
          simp [transcribe_status_outcome, hlc, hok, hrf]
        have h46 : 400 ≤ status ∧ status < 600 := by
          simpa [raiseForStatus] using hrf
        refine ⟨?_, ?_, ?_, ?_, ?_⟩
        · rw [e]
          exact iff_of_true (by simp) (Or.inl h46)
        · rw [e]
          simp [hlc, hok]
        · rw [e]
          simp [hok]
        · intro hb h3
          rw [hb] at hok
          exact absurd hok (by simp [logArgOk])
        · intro hs
          exact absurd h46.1 (by omega)
      · have e : transcribe_status_outcome status b = (.returnsData, true) := by
          simp [transcribe_status_outcome, hlc, hok, hrf]
        have h46 : ¬ (400 ≤ status ∧ status < 600) := by
          intro h
          exact hrf (by simp [raiseForStatus, h.1, h.2])
        refine ⟨?_, ?_, ?_, ?_, ?_⟩
        · rw [e]
          simp [h46, hok]
        · rw [e]
          simp [hlc, hok]
        · rw [e]
          simp [hok]
        · intro hb h3
          rw [hb] at hok
          exact absurd hok (by simp [logArgOk])
        · intro hs
          rw [h2xx hs] at hlc
          exact Bool.noConfusion hlc
    · have hokf : logArgOk b = false := by
        simpa using hok
      have e : transcribe_status_outcome status b = (.attrError, false) := by
        simp [transcribe_status_outcome, hlc, hokf]
      refine ⟨?_, ?_, ?_, ?_, ?_⟩
      · rw [e]
        exact iff_of_true (by simp) (Or.inr ⟨hlc, hokf⟩)
      · rw [e]
        simp [hokf]
      · rw [e]
        simp [hlc, hokf]
      · intro hb h3
        rw [e]
      · intro hs
        rw [h2xx hs] at hlc
        exact Bool.noConfusion hlc
  · have hlcf : logCondition status b = false := by
      simpa using hlc
    by_cases hrf : raiseForStatus status = true
    · have e : transcribe_status_outcome status b = (.httpError, false) := by
        simp [transcribe_status_outcome, hlcf, hrf]
      have h46 : 400 ≤ status ∧ status < 600 := by
        simpa [raiseForStatus] using hrf
      refine ⟨?_, ?_, ?_, ?_, ?_⟩
      · rw [e]
        exact iff_of_true (by simp) (Or.inl h46)
      · rw [e]
        simp [hlcf]
      · rw [e]
        simp [hlcf]
      · intro hb h3
        rw [hb] at hlcf
        rw [logCondition, decide_eq_true h3] at hlcf
        simp at hlcf
      · intro hs
        exact absurd h46.1 (by omega)
    · have e : transcribe_status_outcome status b = (.returnsData, false) := by
        simp [transcribe_status_outcome, hlcf, hrf]
      have h46 : ¬ (400 ≤ status ∧ status < 600) := by
        intro h
        exact hrf (by simp [raiseForStatus, h.1, h.2])
      refine ⟨?_, ?_, ?_, ?_, ?_⟩
      · rw [e]
        simp [h46, hlcf]
      · rw [e]
        simp [hlcf]
      · rw [e]
        simp [hlcf]
      · intro hb h3
        rw [hb] at hlcf
        rw [logCondition, decide_eq_true h3] at hlcf
        simp at hlcf
      · intro hs
        rw [e]

/-- Witness for C3: an unparseable body at 404 raises `AttributeError` at the
logging line; a 250 response with a gettable dict body returns the data
without logging. -/
theorem C3_status_handling_witness :
    (transcribe_status_outcome 404 .unparsable).1 = .attrError ∧
    transcribe_status_outcome 250 (.parsedDict true .absent)
      = (.returnsData, false) := by
  refine ⟨(C3_status_handling 404 .unparsable).2.2.2.1 rfl (by decide), ?_⟩
  exact (C3_status_handling 250 (.parsedDict true .absent)).2.2.2.2 (by decide)

/-- C4 (counterexample): the claim requires the first ten characters to match
the structural pattern `YYYY-MM-DD`; the code only checks that the name starts
with `"20"`, that its first four characters are digits, and that it is longer
than ten characters.  On the base name `"20991231ABC"` (no hyphens) the code
still uses its first ten characters as the date, while the claim's rule would
format the modification time (here `"1970-01-01"`). -/
theorem C4_claim_counterexample :
    assumed_date "20991231ABC" "1970-01-01" = "20991231AB" ∧
    dateLikeYYYYMMDD (strTake "20991231ABC" 10) = false ∧
    assumed_date_spec "20991231ABC" "1970-01-01" = "1970-01-01" := by
  refine ⟨?_, by decide, ?_⟩ <;> decide

/-- C4 (amended): the inferred date equals the base name's first ten
characters exactly when the name starts with `"20"`, its first four characters
are digits, and the name is longer than ten characters; in every other case it
equals the modification time formatted as `YYYY-MM-DD`.  The claim's two
examples are unaffected: `2024-01-01_01-01-01.mp4` yields `2024-01-01`
whatever the modification time, and `clip.mp4` yields the formatted
modification time. -/
theorem C4_date_inference (b m : String) (hm : m ≠ strTake b 10) :
    (assumed_date b m = strTake b 10 ↔
      (startswith b "20" && pyIsdigit (strTake b 4) && decide (strLen b > 10)) = true) ∧
    ((startswith b "20" && pyIsdigit (strTake b 4) && decide (strLen b > 10)) = false →
      assumed_date b m = m) ∧
    assumed_date "2024-01-01_01-01-01.mp4" m = "2024-01-01" ∧
    assumed_date "clip.mp4" m = m := by
  refine ⟨⟨fun he => ?_, fun hc => ?_⟩, fun hc => ?_, ?_, ?_⟩
  · by_cases hc : (startswith b "20" && pyIsdigit (strTake b 4)
        && decide (strLen b > 10)) = true
    · exact hc
    · rw [assumed_date, if_neg (by simpa using hc)] at he
      exact absurd he hm
  · rw [assumed_date, if_pos hc]
  · rw [assumed_date, if_neg (by simp [hc])]
  · rw [assumed_date, if_pos (by decide)]
    decide
  · rw [assumed_date, if_neg (by decide)]

/-- Witness for C4: on base name `"clip.mp4"` with formatted modification
time `"1970-01-01"`, the inferred date is the modification time. -/
theorem C4_date_inference_witness :
    assumed_date "clip.mp4" "1970-01-01" = "1970-01-01" :=
  (C4_date_inference "clip.mp4" "1970-01-01" (by decide)).2.2.2

/-- Helper: the assembly fold appends the per-segment lines after its initial
string. -/
theorem foldl_segmentLine (segs : List Segment) (init : String) :
    segs.foldl (fun text seg => text ++ segmentLine seg) init
      = init ++ segmentLines segs := by
  induction segs generalizing init with
  | nil => simp [segmentLines]
  | cons sg rest ih =>
    rw [List.foldl_cons, ih, segmentLines, ← String.append_assoc]

/-- C5 (confirmed): the assembled document is the `Filename:` line, the
`Date:` line, a blank line, then one line per segment in segment order, each
`[` ++ elapsed-duration rendering of the segment's start ++ `] ` ++ the
segment's text; the claim's example segments produce `[0:00:00] Hello` and
`[0:01:05] World` in that order. -/
theorem C5_document_layout (b d : String) (segs : List Segment) :
    assemble_transcript b d segs
      = "Filename: " ++ b ++ "\nDate: " ++ d ++ "\n\n" ++ segmentLines segs ∧
    (∀ seg : Segment, segmentLine seg
      = "[" ++ strTimedelta seg.start ++ "] " ++ seg.text ++ "\n") ∧
    segmentLines [⟨0, "Hello"⟩, ⟨65, "World"⟩]
      = "[0:00:00] Hello\n" ++ "[0:01:05] World\n" := by
  refine ⟨foldl_segmentLine segs _, fun seg => rfl, by decide⟩

/-- C6 (counterexample): the claim says a literal-text input still yields a
document with the `Filename:`/`Date:` header.  The header is only built in the
transcription branch: with `transcription` null and literal text
`"Hello World!"`, the document is the text itself and carries no header. -/
theorem C6_claim_counterexample :
    main_document "clip.mp4" "1970-01-01" none (some "Hello World!")
      = some "Hello World!" ∧
    startswith "Hello World!" "Filename:" = false := by
  exact ⟨rfl, by decide⟩

/-- C6 (amended): when the Classifier resolves the input to literal text
(`transcription` null, `text` non-null), the output document is the literal
text verbatim — no `Filename:`/`Date:` header and no per-segment formatting.
The date-inference result is computed but unused: the document does not depend
on it. -/
theorem C6_literal_text_body (b d d2 s : String) :
    main_document b d none (some s) = some s ∧
    main_document b d none (some s) = main_document b d2 none (some s) :=
  ⟨rfl, rfl⟩

/-- C7 (counterexample): the claim says a cache-miss run creates exactly one
cache-entry file and exactly one intermediate audio file.  On input `a.mp4`
(no pre-existing outputs) the run writes three pairwise distinct paths — two
intermediate audio files (`a.opus` and `a.ogg`) plus the cache entry. -/
theorem C7_claim_counterexample :
    writtenPaths (fresh_pipeline_events "a.mp4" (fun _ => false))
      = ["a.opus", "a.ogg", ".a.json"] ∧
    ("a.opus" ≠ "a.ogg" ∧ "a.opus" ≠ ".a.json" ∧ "a.ogg" ≠ ".a.json") := by
  exact ⟨rfl, by decide⟩

/-- C7 (amended): one cache-miss run of `get_transcription_for_file` creates
or overwrites exactly one cache-entry file and exactly two intermediate audio
files (the `.opus` and `.ogg` outputs derived from the input's base name), in
that order, and touches no other file: the only removals are of pre-existing
copies of those two audio outputs. -/
theorem C7_fresh_pipeline_effects (f : String) (ex : String → Bool) :
    writtenPaths (fresh_pipeline_events f ex)
      = [(audioOutputs f).1, (audioOutputs f).2, cachePath f] ∧
    (∀ p ∈ removedPaths (fresh_pipeline_events f ex),
      p = (audioOutputs f).1 ∨ p = (audioOutputs f).2) := by
  constructor
  · by_cases h1 : ex (audioOutputs f).1 <;> by_cases h2 : ex (audioOutputs f).2 <;>
      simp [writtenPaths, fresh_pipeline_events, extract_audio_events, h1, h2]
  · intro p hp
    by_cases h1 : ex (audioOutputs f).1 <;> by_cases h2 : ex (audioOutputs f).2 <;>
      simp [removedPaths, fresh_pipeline_events, extract_audio_events, h1, h2] at hp <;>
      tauto

/-- Witness for C7: input `a.mp4` with both audio outputs pre-existing — they
are removed (and nothing else is), then rewritten along with the cache entry. -/
theorem C7_fresh_pipeline_effects_witness :
    writtenPaths (fresh_pipeline_events "a.mp4" (fun _ => true))
      = [(audioOutputs "a.mp4").1, (audioOutputs "a.mp4").2, cachePath "a.mp4"] ∧
    ("a.opus" = (audioOutputs "a.mp4").1 ∨ "a.opus" = (audioOutputs "a.mp4").2) := by
  have h := C7_fresh_pipeline_effects "a.mp4" (fun _ => true)
  exact ⟨h.1, h.2 "a.opus" (by decide)⟩

/-- C8 (counterexample): the claim says a `.json`-named file whose contents
parse yields a non-null Transcription, and that both outputs are null only
when decoding fails.  A `.json` file containing the JSON literal `null`
decodes and parses fine, yet `json.load` returns Python `None`, so `read_file`
returns both outputs null without any error. -/
theorem C8_claim_counterexample :
    read_file "t.json" (.text "null") (fun _ => (JsonParse.null : JsonParse Nat))
      = .ok (none, none) ∧
    endswith "t.json" ".json" = true := by
  exact ⟨rfl, by decide⟩

/-- C8 (amended): `read_file` yields a non-null Transcription with null text
when the name ends in `.json` and the contents parse to a non-null JSON value;
null Transcription with the full decoded contents as text for non-`.json`
names; both null when decoding fails, and also when a `.json` file's contents
parse to the JSON literal `null`; and a `.json` file whose contents fail to
parse raises a fatal `JSONDecodeError` instead of downgrading. -/
theorem C8_classifier_outcomes {α : Type} (name s : String)
    (parse : String → JsonParse α) :
    (read_file name .undecodable parse = .ok (none, none)) ∧
    (endswith name ".json" = false →
      read_file name (.text s) parse = .ok (none, some s)) ∧
    (endswith name ".json" = true →
      (∀ v, parse s = .value v →
        read_file name (.text s) parse = .ok (some v, none)) ∧
      (parse s = .null → read_file name (.text s) parse = .ok (none, none)) ∧
      (parse s = .fail →
        read_file name (.text s) parse = .error "json.decoder.JSONDecodeError")) := by
  refine ⟨rfl, fun hn => ?_, fun hy => ⟨fun v hv => ?_, fun hv => ?_, fun hv => ?_⟩⟩
  · simp [read_file, hn]
  · simp [read_file, hy, hv]
  · simp [read_file, hy, hv]
  · simp [read_file, hy, hv]

/-- Witness for C8: a `.txt` file with decodable contents is classified as
literal text with the full contents. -/
theorem C8_classifier_outcomes_witness :
    read_file "t.txt" (.text "hi") (fun _ => (JsonParse.null : JsonParse Nat))
      = .ok (none, some "hi") :=
  (C8_classifier_outcomes "t.txt" "hi" (fun _ => (JsonParse.null : JsonParse Nat))).2.1
    (by decide)

/-- C9 (confirmed): each child-process invocation of the Extractor (two ffmpeg
steps) and of the duration probe (ffprobe) raises a fatal `ChildProcessError`
on a non-zero exit status — with a message that is literally
`Error running command: ` ++ the invoked command ++ a newline ++ the process's
stderr, hence contains the command and the error stream verbatim — and raises
nothing on a zero exit status. -/
theorem C9_subprocess_errors (f a : String) (run : String → RunResult) :
    ((run (extractCmd1 f (audioOutputs f).1)).returncode ≠ 0 →
      extract_audio f run = .error (commandErrorMsg (extractCmd1 f (audioOutputs f).1)
        (run (extractCmd1 f (audioOutputs f).1)))) ∧
    ((run (extractCmd1 f (audioOutputs f).1)).returncode = 0 →
      (run (extractCmd2 (audioOutputs f).1 (audioOutputs f).2)).returncode ≠ 0 →
      extract_audio f run
        = .error (commandErrorMsg (extractCmd2 (audioOutputs f).1 (audioOutputs f).2)
            (run (extractCmd2 (audioOutputs f).1 (audioOutputs f).2)))) ∧
    ((run (extractCmd1 f (audioOutputs f).1)).returncode = 0 →
      (run (extractCmd2 (audioOutputs f).1 (audioOutputs f).2)).returncode = 0 →
      extract_audio f run = .ok (audioOutputs f).2) ∧
    ((run (ffprobeCmd a)).returncode ≠ 0 →
      get_audio_duration a run
        = .error (commandErrorMsg (ffprobeCmd a) (run (ffprobeCmd a)))) ∧
    ((run (ffprobeCmd a)).returncode = 0 →
      get_audio_duration a run = .ok (run (ffprobeCmd a)).stdout.trim) ∧
    (∀ c r, (∃ x y, commandErrorMsg c r = (x ++ c) ++ y) ∧
      (∃ w, commandErrorMsg c r = w ++ r.stderr)) := by
  refine ⟨fun h1 => ?_, fun h1 h2 => ?_, fun h1 h2 => ?_, fun h => ?_, fun h => ?_,
    fun c r => ⟨⟨"Error running command: ", "\n" ++ r.stderr, ?_⟩,
      ⟨"Error running command: " ++ c ++ "\n", rfl⟩⟩⟩
  · simp [extract_audio, h1]
  · simp [extract_audio, h1, h2]
  · simp [extract_audio, h1, h2]
  · simp [get_audio_duration, h]
  · simp [get_audio_duration, h]
  · rw [commandErrorMsg, String.append_assoc]

/-- Witness for C9: a run whose first ffmpeg invocation exits with status 1
and stderr `boom` makes `extract_audio` fail with the command and `boom` in
the message. -/
theorem C9_subprocess_errors_witness :
    extract_audio "a.mp4" (fun _ => (⟨1, "", "boom"⟩ : RunResult))
      = .error (commandErrorMsg (extractCmd1 "a.mp4" (audioOutputs "a.mp4").1)
          (⟨1, "", "boom"⟩ : RunResult)) :=
  (C9_subprocess_errors "a.mp4" "a.ogg" (fun _ => (⟨1, "", "boom"⟩ : RunResult))).1
    (by decide)

/-! ### Path lemmas for C10 -/

/-- Helper: `takeWhile` passes over a leading block that wholly satisfies `p`. -/
theorem takeWhile_append_all (p : Char → Bool) (l1 l2 : List Char)
    (h : ∀ c ∈ l1, p c = true) :
    (l1 ++ l2).takeWhile p = l1 ++ l2.takeWhile p := by
  induction l1 with
  | nil => rfl
  | cons c rest ih =>
    have hc : p c = true := h c (by simp)
    simp only [List.cons_append, List.takeWhile_cons, hc, if_true]
    rw [ih (fun x hx => h x (by simp [hx]))]

/-- Helper: `dropWhile` drops a leading block that wholly satisfies `p`. -/
theorem dropWhile_append_all (p : Char → Bool) (l1 l2 : List Char)
    (h : ∀ c ∈ l1, p c = true) :
    (l1 ++ l2).dropWhile p = l2.dropWhile p := by
  induction l1 with
  | nil => rfl
  | cons c rest ih =>
    have hc : p c = true := h c (by simp)
    simp only [List.cons_append, List.dropWhile_cons, hc, if_true]
    exact ih (fun x hx => h x (by simp [hx]))

/-- Helper: `takeWhile` keeps a list that wholly satisfies `p`. -/
theorem takeWhile_all (p : Char → Bool) (l : List Char)
    (h : ∀ c ∈ l, p c = true) : l.takeWhile p = l := by
  have h2 := takeWhile_append_all p l [] h
  simpa using h2

/-- Helper: `dropWhile` empties a list that wholly satisfies `p`. -/
theorem dropWhile_all (p : Char → Bool) (l : List Char)
    (h : ∀ c ∈ l, p c = true) : l.dropWhile p = [] := by
  have h2 := dropWhile_append_all p l [] h
  simpa using h2

/-- Helper: splitting a slash-free string at the last slash leaves everything
in the tail part. -/
theorem splitAtLastSlash_slashfree (l : List Char) (h : ∀ c ∈ l, c ≠ '/') :
    splitAtLastSlash l = ([], l) := by
  have hr : ∀ c ∈ l.reverse, (fun c => decide (c ≠ '/')) c = true := fun c hc =>
    decide_eq_true (h c (List.mem_reverse.mp hc))
  simp only [splitAtLastSlash]
  rw [takeWhile_all _ _ hr, dropWhile_all _ _ hr]
  simp

/-- Helper: splitting `dl ++ "/" ++ nl` at the last slash, for slash-free
`nl`. -/
theorem splitAtLastSlash_append (dl nl : List Char) (h : ∀ c ∈ nl, c ≠ '/') :
    splitAtLastSlash (dl ++ '/' :: nl) = (dl ++ ['/'], nl) := by
  have hr : ∀ c ∈ nl.reverse, (fun c => decide (c ≠ '/')) c = true := fun c hc =>
    decide_eq_true (h c (List.mem_reverse.mp hc))
  simp only [splitAtLastSlash]
  rw [show (dl ++ '/' :: nl).reverse = nl.reverse ++ '/' :: dl.reverse by
    simp [List.reverse_append]]
  rw [takeWhile_append_all _ _ _ hr, dropWhile_append_all _ _ _ hr]
  simp

/-- Helper: the character data of `d ++ "/" ++ n`. -/
theorem data_concat (d n : String) :
    (d ++ "/" ++ n).data = d.data ++ '/' :: n.data := by
  simp [String.data_append]

/-- Helper: `basename` of `d ++ "/" ++ n` for slash-free `n`. -/
theorem basename_concat (d n : String) (hn : ∀ c ∈ n.data, c ≠ '/') :
    basename (d ++ "/" ++ n) = n := by
  apply String.ext
  simp only [basename, data_concat, splitAtLastSlash_append d.data n.data hn]

/-- Helper: `dirname` of a slash-free path is empty (the working directory). -/
theorem dirname_slashfree (s : String) (h : ∀ c ∈ s.data, c ≠ '/') :
    dirname s = "" := by
  simp only [dirname, splitAtLastSlash_slashfree s.data h]
  simp

/-- Helper: `dirname` of `d ++ "/" ++ n` is `d`, when `d` is nonempty and does
not end in a slash and `n` is slash-free. -/
theorem dirname_concat (d n : String) (hd : d ≠ "")
    (hlast : d.data.getLast? ≠ some '/') (hn : ∀ c ∈ n.data, c ≠ '/') :
    dirname (d ++ "/" ++ n) = d := by
  have hdne : d.data ≠ [] := fun h0 => hd (String.ext (by rw [h0]))
  cases hrev : d.data.reverse with
  | nil =>
    exfalso
    apply hdne
    have h0 := congrArg List.reverse hrev
    simpa using h0
  | cons c rest =>
    have hc : c ≠ '/' := by
      intro hcs
      apply hlast
      rw [← List.head?_reverse, hrev, hcs]
      rfl
    have hmemc : c ∈ d.data := by
      rw [← List.mem_reverse, hrev]
      simp
    simp only [dirname, data_concat, splitAtLastSlash_append d.data n.data hn]
    rw [if_pos ?hcond]
    case hcond =>
      constructor
      · simp
      · rw [List.any_eq_true]
        exact ⟨c, by simp [hmemc], decide_eq_true hc⟩
    apply String.ext
    rw [show (d.data ++ ['/']).reverse = '/' :: d.data.reverse by simp]
    rw [List.dropWhile_cons, hrev, List.dropWhile_cons]
    simp only [decide_eq_true rfl, if_true, decide_eq_false hc, Bool.false_eq_true,
      if_false]
    rw [← hrev]
    simp

/-- Helper: every character of `splitext`'s root comes from the input. -/
theorem splitextData_root_mem (l : List Char) :
    ∀ c ∈ (splitextData l).1, c ∈ l := by
  intro c hc
  rcases hrest : (splitAtLastSlash l).2.reverse.dropWhile (fun c => decide (c ≠ '.'))
    with _ | ⟨hd0, tl⟩
  · have e : (splitextData l).1 = l := by
      simp only [splitextData, hrest]
    rw [e] at hc
    exact hc
  · by_cases hany : (tl.any fun c => decide (c ≠ '.')) = true
    · have e : (splitextData l).1 = (splitAtLastSlash l).1 ++ tl.reverse := by
        simp only [splitextData, hrest, hany, if_true]
      rw [e] at hc
      rcases List.mem_append.mp hc with hh | ht
      · have h1 : c ∈ l.reverse.dropWhile (fun c => decide (c ≠ '/')) := by
          simpa [splitAtLastSlash] using List.mem_reverse.mp (by
            simpa [splitAtLastSlash] using hh)
        exact List.mem_reverse.mp
          (List.Sublist.mem h1 (List.dropWhile_sublist _))
      · have h1 : c ∈ hd0 :: tl := List.mem_cons_of_mem _ (List.mem_reverse.mp ht)
        rw [← hrest] at h1
        have h2 : c ∈ (splitAtLastSlash l).2.reverse :=
          List.Sublist.mem h1 (List.dropWhile_sublist _)
        have h3 : c ∈ l.reverse.takeWhile (fun c => decide (c ≠ '/')) := by
          simpa [splitAtLastSlash] using List.mem_reverse.mp h2
        exact List.mem_reverse.mp
          (List.Sublist.mem h3 (List.takeWhile_sublist _))
    · have hany2 : (tl.any fun c => decide (c ≠ '.')) = false := by
        simpa using hany
      have e : (splitextData l).1 = l := by
        simp only [splitextData, hrest, hany2]
        simp
      rw [e] at hc
      exact hc

/-- C10 (confirmed): for an input `d ++ "/" ++ n` lying in directory `d`, both
audio outputs of `extract_audio` are bare file names resolved in the process's
working directory (their directory part is empty, not `d`), while the cache
entry of `get_transcription_for_file` lies in the input's own directory `d`. -/
theorem C10_output_locations (d n : String) (hd : d ≠ "")
    (hlast : d.data.getLast? ≠ some '/') (hn : ∀ c ∈ n.data, c ≠ '/') :
    dirname (d ++ "/" ++ n) = d ∧
    dirname ((audioOutputs (d ++ "/" ++ n)).1) = "" ∧
    dirname ((audioOutputs (d ++ "/" ++ n)).2) = "" ∧
    dirname (cachePath (d ++ "/" ++ n)) = dirname (d ++ "/" ++ n) ∧
    dirname ((audioOutputs (d ++ "/" ++ n)).1) ≠ dirname (d ++ "/" ++ n) ∧
    dirname ((audioOutputs (d ++ "/" ++ n)).2) ≠ dirname (d ++ "/" ++ n) := by
  have hdir : dirname (d ++ "/" ++ n) = d := dirname_concat d n hd hlast hn
  have hbase : basename (d ++ "/" ++ n) = n := basename_concat d n hn
  have hroot : ∀ c ∈ (splitext (basename (d ++ "/" ++ n))).1.data, c ≠ '/' := by
    rw [hbase]
    intro c hc
    exact hn c (splitextData_root_mem n.data c hc)
  have hdotopus : ∀ x ∈ (".opus" : String).data, x ≠ '/' := by decide
  have hdotogg : ∀ x ∈ (".ogg" : String).data, x ≠ '/' := by decide
  have hdotjson : ∀ x ∈ (".json" : String).data, x ≠ '/' := by decide
  have hdot : ∀ x ∈ ("." : String).data, x ≠ '/' := by decide
  have hopus : ∀ c ∈ ((splitext (basename (d ++ "/" ++ n))).1 ++ ".opus").data,
      c ≠ '/' := by
    intro c hc
    rw [String.data_append] at hc
    rcases List.mem_append.mp hc with h | h
    · exact hroot c h
    · exact hdotopus c h
  have hogg : ∀ c ∈ ((splitext (basename (d ++ "/" ++ n))).1 ++ ".ogg").data,
      c ≠ '/' := by
    intro c hc
    rw [String.data_append] at hc
    rcases List.mem_append.mp hc with h | h
    · exact hroot c h
    · exact hdotogg c h
  have hsidecar : ∀ c ∈ ("." ++ (splitext (basename (d ++ "/" ++ n))).1
      ++ ".json").data, c ≠ '/' := by
    intro c hc
    rw [String.data_append, String.data_append] at hc
    rcases List.mem_append.mp hc with h | h
    · rcases List.mem_append.mp h with h2 | h2
      · exact hdot c h2
      · exact hroot c h2
    · exact hdotjson c h
  have hjoin : cachePath (d ++ "/" ++ n)
      = d ++ "/" ++ ("." ++ (splitext (basename (d ++ "/" ++ n))).1 ++ ".json") := by
    have hpre : startswith ("." ++ (splitext (basename (d ++ "/" ++ n))).1
        ++ ".json") "/" = false := rfl
    have hdfalse : decide (d = "") = false := decide_eq_false hd
    have hsuf : endswith d "/" = false := by
      have hdne : d.data ≠ [] := fun h0 => hd (String.ext (by rw [h0]))
      cases hrev : d.data.reverse with
      | nil =>
        exfalso
        apply hdne
        have h0 := congrArg List.reverse hrev
        simpa using h0
      | cons c rest =>
        have hc : c ≠ '/' := by
          intro hcs
          apply hlast
          rw [← List.head?_reverse, hrev, hcs]
          rfl
        simp only [endswith, List.isSuffixOf, hrev]
        simp [List.isPrefixOf, beq_eq_false_iff_ne, Ne.symm hc]
    simp only [cachePath, joinPath, hdir, hpre, hdfalse, hsuf]
    simp
  refine ⟨hdir, ?_, ?_, ?_, ?_, ?_⟩
  · exact dirname_slashfree _ hopus
  · exact dirname_slashfree _ hogg
  · rw [hjoin, hdir]
    exact dirname_concat d _ hd hlast hsidecar
  · rw [show (audioOutputs (d ++ "/" ++ n)).1
        = (splitext (basename (d ++ "/" ++ n))).1 ++ ".opus" from rfl]
    rw [dirname_slashfree _ hopus, hdir]
    exact fun h0 => hd h0.symm
  · rw [show (audioOutputs (d ++ "/" ++ n)).2
        = (splitext (basename (d ++ "/" ++ n))).1 ++ ".ogg" from rfl]
    rw [dirname_slashfree _ hogg, hdir]
    exact fun h0 => hd h0.symm

/-- Witness for C10: input `videos/clip.mp4` — the audio outputs resolve to
the working directory while the cache entry stays in `videos`. -/
theorem C10_output_locations_witness :
    dirname ((audioOutputs ("videos" ++ "/" ++ "clip.mp4")).1) = "" ∧
    dirname (cachePath ("videos" ++ "/" ++ "clip.mp4"))
      = dirname ("videos" ++ "/" ++ "clip.mp4") := by
  have h := C10_output_locations "videos" "clip.mp4" (by decide) (by decide) (by decide)
  exact ⟨h.2.1, h.2.2.2.1⟩

end Transcribe
